import Mathlib

/-!
Verification of the damo scheme-input compiler: the unit-aware value
parser/formatter (`_damo_fmt_str`) and the scheme text decoders
(`_damo_schemes_input.py`).

Python strings are embedded as `List Char` (with `String` wrappers at the
boundaries); unsigned 64-bit quantities as `Nat` with explicit clamping at
`2 ^ 64 - 1`; Python numbers produced by the value parser as exact decimal
fixed-point values (`PyNum`, a mantissa together with a power-of-ten scale);
fallible code as `Option` / `Except`.  All definitions are executable and
kernel-reducible, so concrete inputs evaluate by `decide`.
-/

/-! ## Python string primitives -/

/-- Whitespace recognized by Python `str.split()` / `str.strip()`. -/
def pyIsSpace (c : Char) : Bool :=
  (c == ' ') || (c == '\t') || (c == '\n') || (c == '\r') || (c == '\x0b') || (c == '\x0c')

/-- Python `str.strip()`: drop whitespace from both ends. -/
def pyStrip (s : List Char) : List Char :=
  ((s.dropWhile pyIsSpace).reverse.dropWhile pyIsSpace).reverse

/-- `pyStrip` on a `String`. -/
def pyStripStr (s : String) : String :=
  String.mk (pyStrip s.data)

/-- Helper for Python `str.split()` (no separator): `acc` holds the current
word reversed. -/
def wordsAux : List Char → List Char → List (List Char)
  | [], acc => if acc = [] then [] else [acc.reverse]
  | c :: cs, acc =>
    if pyIsSpace c then
      (if acc = [] then wordsAux cs [] else acc.reverse :: wordsAux cs [])
    else wordsAux cs (c :: acc)

/-- Python `str.split()` with no argument: split on whitespace runs,
dropping empty pieces. -/
def pyWords (s : String) : List String :=
  (wordsAux s.data []).map String.mk

/-- Split on a separator character, keeping empty pieces, as Python
`str.split(sep)` does. -/
def splitOnChar (sep : Char) : List Char → List (List Char)
  | [] => [[]]
  | c :: cs =>
    if c = sep then [] :: splitOnChar sep cs
    else
      match splitOnChar sep cs with
      | [] => [[c]]
      | l :: ls => (c :: l) :: ls

/-- Python `str.lower()` (ASCII, as used for action and metric names). -/
def pyLower (s : String) : String :=
  String.mk (s.data.map Char.toLower)

/-- Does the line start with the comment marker `#`? -/
def startsHash : List Char → Bool
  | [] => false
  | c :: _ => c == '#'

/-! ## Digits -/

def digitVal (c : Char) : Nat := c.toNat - 48

def allDigits (l : List Char) : Bool := l.all Char.isDigit

/-- Value of a big-endian digit string. -/
def digitsVal (l : List Char) : Nat := l.foldl (fun a c => a * 10 + digitVal c) 0

/-- Little-endian decimal digits of `n`; the fuel argument (any bound of the
digit count, `n + 1` suffices) keeps the recursion structural. -/
def natStrAux : Nat → Nat → List Char
  | 0, _ => []
  | fuel + 1, n => if n = 0 then [] else Nat.digitChar (n % 10) :: natStrAux fuel (n / 10)

/-- Decimal rendering of `n`, big-endian, `"0"` for zero. -/
def natStr (n : Nat) : List Char :=
  if n = 0 then ['0'] else (natStrAux (n + 1) n).reverse

def natString (n : Nat) : String := String.mk (natStr n)

/-- Value of a little-endian digit string (specification helper for the
round-trip proof). -/
def valLE : List Char → Nat
  | [] => 0
  | c :: cs => digitVal c + 10 * valLE cs

/-! ## The value parser (`_damo_fmt_str`)

The `_damo_fmt_str` module itself is not part of the sources; every
definition in this section is modelled from the spec (its §4.1/§4.2
operation descriptions and §3 sentinel rule) and checked against the
module's behavioral fixtures in `tests/unittest/test_fmt_str.py`. -/

/-- An exact decimal number `mant / 10 ^ scale`: the shallow embedding of
the int-or-float values produced by the Python number parser. -/
structure PyNum where
  mant : Nat
  scale : Nat
deriving DecidableEq, Repr

/-- Rational value of a `PyNum` (specification only). -/
def PyNum.val (q : PyNum) : ℚ := (q.mant : ℚ) / 10 ^ q.scale

/-- Sum of two decimal numbers, on a common power-of-ten denominator. -/
def PyNum.add (a b : PyNum) : PyNum :=
  ⟨a.mant * 10 ^ b.scale + b.mant * 10 ^ a.scale, a.scale + b.scale⟩

/-- A decimal number scaled by a natural multiplier. -/
def PyNum.scaleBy (q : PyNum) (m : Nat) : PyNum := ⟨q.mant * m, q.scale⟩

/-- Integer part (truncation toward zero, which for these non-negative
values is also the floor). -/
def PyNum.trunc (q : PyNum) : Nat := q.mant / 10 ^ q.scale

/-- A character the number scanner accepts: digit, grouping comma, or
decimal point. -/
def isNumCh (c : Char) : Bool := c.isDigit || (c == ',') || (c == '.')

/-- Modelled from the spec: `parseNumber` (`_damo_fmt_str.text_to_nr`,
absent from the sources).  Grouping commas are stripped from anywhere in
the string; the result parses as a float when a decimal point remains and
as an integer otherwise. -/
def text_to_nr_chars (s : List Char) : Option PyNum :=
  let t := (pyStrip s).filter (fun c => !(c == ','))
  match splitOnChar '.' t with
  | [a] => if !a.isEmpty && allDigits a then some ⟨digitsVal a, 0⟩ else none
  | [a, b] =>
    if (!a.isEmpty || !b.isEmpty) && allDigits a && allDigits b then
      some ⟨digitsVal a * 10 ^ b.length + digitsVal b, b.length⟩
    else none
  | _ => none

def text_to_nr (s : String) : Option PyNum := text_to_nr_chars s.data

/-- Insert a grouping comma after every third character of a little-endian
digit string. -/
def groupLE : List Char → Nat → List Char
  | [], _ => []
  | c :: cs, 0 => ',' :: c :: groupLE cs 2
  | c :: cs, k + 1 => c :: groupLE cs k

/-- Modelled from the spec: `formatNumber` (`_damo_fmt_str.format_nr`,
absent from the sources).  Unless asked for the machine-friendly raw form,
grouping separators are inserted every three digits from the right. -/
def format_nr (n : Nat) (machine_friendly : Bool) : String :=
  if machine_friendly then String.mk (natStr n)
  else String.mk ((groupLE (natStr n).reverse 3).reverse)

/-- The maximum representable u64, the value of the `max` sentinel
(`_damo_fmt_str.ulong_max`). -/
def ulong_max : Nat := 2 ^ 64 - 1

/-- Byte suffixes: each single-letter and IEC pair denotes the same binary
multiplier `1024 ^ n`. -/
def bytes_suffixes : List (List Char × Nat) :=
  [("B".data, 1), ("K".data, 1024), ("KiB".data, 1024),
   ("M".data, 1024 ^ 2), ("MiB".data, 1024 ^ 2),
   ("G".data, 1024 ^ 3), ("GiB".data, 1024 ^ 3),
   ("T".data, 1024 ^ 4), ("TiB".data, 1024 ^ 4),
   ("P".data, 1024 ^ 5), ("PiB".data, 1024 ^ 5),
   ("E".data, 1024 ^ 6), ("EiB".data, 1024 ^ 6)]

def lookupSuffix : List (List Char × Nat) → List Char → Option Nat
  | [], _ => none
  | (k, m) :: rest, sfx => if sfx = k then some m else lookupSuffix rest sfx

/-- Multiplier of an (already stripped) byte suffix; no suffix means raw
bytes. -/
def bytes_suffix_to_mult (sfx : List Char) : Option Nat :=
  if sfx = [] then some 1 else lookupSuffix bytes_suffixes sfx

/-- Modelled from the spec: `parseBytes` (`_damo_fmt_str.text_to_bytes`,
absent from the sources).  `min`/`max` sentinels first; otherwise a leading
number, optional whitespace, and an optional binary suffix; the product is
truncated toward zero and clamped at the maximum representable u64. -/
def text_to_bytes_chars (s : List Char) : Option Nat :=
  let t := pyStrip s
  if t = "min".data then some 0
  else if t = "max".data then some ulong_max
  else
    let numPart := t.takeWhile isNumCh
    let sfx := pyStrip (t.dropWhile isNumCh)
    match text_to_nr_chars numPart, bytes_suffix_to_mult sfx with
    | some q, some mult => some (min (q.scaleBy mult).trunc ulong_max)
    | _, _ => none

def text_to_bytes (s : String) : Option Nat := text_to_bytes_chars s.data

/-- Duration unit suffixes, in nanoseconds. -/
def time_suffixes : List (List Char × Nat) :=
  [("ns".data, 1), ("us".data, 1000), ("ms".data, 1000 * 1000),
   ("s".data, 1000 * 1000 * 1000), ("m".data, 60 * 1000 * 1000 * 1000),
   ("h".data, 60 * 60 * 1000 * 1000 * 1000),
   ("d".data, 24 * 60 * 60 * 1000 * 1000 * 1000)]

/-- Total of a token stream of `(number, unit)` pairs, in nanoseconds; a
unit token may abut its number or follow as the next token. -/
def time_pairs_to_ns : List (List Char) → Option PyNum
  | [] => some ⟨0, 0⟩
  | tok :: rest =>
    let numPart := tok.takeWhile isNumCh
    let sfx := tok.dropWhile isNumCh
    match text_to_nr_chars numPart with
    | none => none
    | some q =>
      if sfx.isEmpty then
        match rest with
        | u :: rest2 =>
          match lookupSuffix time_suffixes u with
          | some mult => (time_pairs_to_ns rest2).map (fun acc => (q.scaleBy mult).add acc)
          | none => none
        | [] => none
      else
        match lookupSuffix time_suffixes sfx with
        | some mult => (time_pairs_to_ns rest).map (fun acc => (q.scaleBy mult).add acc)
        | none => none

/-- Modelled from the spec: `parseDuration` (`_damo_fmt_str.text_to_time`,
absent from the sources).  `min`/`max` sentinels first; a bare number is
already in the target unit; otherwise space-separated `(number, unit)`
pairs are summed in nanoseconds and the sum is converted to the target
unit. -/
def text_to_time_chars (s : List Char) (target_ns : Nat) : Option Nat :=
  let t := pyStrip s
  if t = "min".data then some 0
  else if t = "max".data then some ulong_max
  else
    match text_to_nr_chars t with
    | some q => some q.trunc
    | none =>
      if t = [] then none
      else
        match time_pairs_to_ns (wordsAux t []) with
        | some total => some (total.mant / (10 ^ total.scale * target_ns))
        | none => none

def text_to_ns (s : String) : Option Nat := text_to_time_chars s.data 1

def text_to_us (s : String) : Option Nat := text_to_time_chars s.data 1000

def text_to_ms (s : String) : Option Nat := text_to_time_chars s.data (1000 * 1000)

/-- Modelled from the spec: `parsePercent` (`_damo_fmt_str.text_to_percent`,
absent from the sources).  Sentinels follow the uniform §3 rule; a trailing
`%` marker (with optional whitespace) is removed and the rest parses as a
number — the bare-number form is accepted, as the documented example scheme
lines in `_damo_schemes_input.py` require. -/
def text_to_percent_chars (s : List Char) : Option PyNum :=
  let t := pyStrip s
  if t = "min".data then some ⟨0, 0⟩
  else if t = "max".data then some ⟨ulong_max, 0⟩
  else
    let t2 := if t.getLast? = some '%' then pyStrip t.dropLast else t
    text_to_nr_chars t2

def text_to_percent (s : String) : Option PyNum := text_to_percent_chars s.data

/-- Python `int(str)`: optional sign, then decimal digits. -/
def pyInt_chars (s : List Char) : Option Int :=
  match pyStrip s with
  | '-' :: ds => if !ds.isEmpty && allDigits ds then some (-(digitsVal ds : Int)) else none
  | '+' :: ds => if !ds.isEmpty && allDigits ds then some ((digitsVal ds : Int)) else none
  | ds => if !ds.isEmpty && allDigits ds then some ((digitsVal ds : Int)) else none

def pyInt (s : String) : Option Int := pyInt_chars s.data

/-! ## The approximate duration formatter -/

def usec_ns : Nat := 1000
def msec_ns : Nat := 1000 * 1000
def sec_ns : Nat := 1000 * 1000 * 1000
def minute_ns : Nat := 60 * sec_ns
def hour_ns : Nat := 60 * minute_ns
def day_ns : Nat := 24 * hour_ns

/-- Three-digit zero-padded rendering of a thousandths count. -/
def pad3 (k : Nat) : List Char :=
  [Nat.digitChar (k / 100 % 10), Nat.digitChar (k / 10 % 10), Nat.digitChar (k % 10)]

/-- Number token of the last populated unit: the whole count, and when the
finer remainder `rem` is nonzero, a fractional part rounded to three
decimal digits (`thousandth` is the nanosecond weight of one such digit). -/
def fracTok (whole rem thousandth : Nat) : List Char :=
  if rem = 0 then natStr whole
  else
    let f := (rem + thousandth / 2) / thousandth
    natStr (whole + f / 1000) ++ '.' :: pad3 (f % 1000)

/-- Modelled from the spec: the token stream of `formatDurationApprox`
(`_damo_fmt_str.format_time_ns`, absent from the sources).  The unit chain
is `h, m, s, ms, us, ns` — the `d` unit is never used, day-scale magnitudes
fold into `h`; whole-unit counts run from the largest populated unit
downward and the last populated unit carries the remainder as a fraction
rounded to three decimals.  Matches every `format_time_ns` fixture of
`tests/unittest/test_fmt_str.py`. -/
def format_time_ns_tokens (ns : Nat) : List String :=
  if ns < usec_ns then [natString ns, "ns"]
  else if ns < msec_ns then [String.mk (fracTok (ns / usec_ns) (ns % usec_ns) 1), "us"]
  else if ns < sec_ns then [String.mk (fracTok (ns / msec_ns) (ns % msec_ns) usec_ns), "ms"]
  else
    let h := ns / hour_ns
    let m := ns % hour_ns / minute_ns
    let s := ns % minute_ns / sec_ns
    let rem := ns % sec_ns
    (if h ≠ 0 then [natString h, "h"] else []) ++
    (if m ≠ 0 ∨ (h ≠ 0 ∧ (s ≠ 0 ∨ rem ≠ 0)) then [natString m, "m"] else []) ++
    (if s ≠ 0 ∨ rem ≠ 0 then [String.mk (fracTok s rem msec_ns), "s"] else [])

/-- Space-joined rendering of a token stream. -/
def joinSpace : List String → String
  | [] => ""
  | [t] => t
  | t :: rest => t ++ " " ++ joinSpace rest

/-- Modelled from the spec: `formatDurationApprox` itself. -/
def format_time_ns (ns : Nat) (machine_friendly : Bool) : String :=
  if machine_friendly then natString ns else joinSpace (format_time_ns_tokens ns)

/-! ## The scheme data model

The `Damos` record shape and its defaults live in the external `_damon`
module, which is not part of the sources; the structures below are modelled
from the spec (§3) and from the canonical JSON example in the
`_damo_schemes_input.py` docstring. -/

def unit_percent : String := "percent"

def unit_usec : String := "usec"

structure DamosAccessPattern where
  min_sz_bytes : Nat
  max_sz_bytes : Nat
  min_nr_accesses : PyNum
  max_nr_accesses : PyNum
  nr_accesses_unit : String
  min_age : Nat
  max_age : Nat
  age_unit : String
deriving DecidableEq, Repr

structure DamosQuotas where
  time_ms : Nat
  sz_bytes : Nat
  reset_interval_ms : Nat
  weight_sz_permil : Int
  weight_nr_accesses_permil : Int
  weight_age_permil : Int
deriving DecidableEq, Repr

structure DamosWatermarks where
  metric : String
  interval_us : Nat
  high_permil : Int
  mid_permil : Int
  low_permil : Int
deriving DecidableEq, Repr

structure Damos where
  name : String
  access_pattern : DamosAccessPattern
  action : String
  quotas : DamosQuotas
  watermarks : DamosWatermarks
  filters : List String
deriving DecidableEq, Repr

/-- Modelled from the spec: `_damon.default_damos_scheme` (absent from the
sources) — a monitoring-only scheme with all-zero quotas and watermarks,
the `none` watermark metric, no filters, and the default name. -/
def default_damos_scheme : Damos where
  name := "0"
  access_pattern :=
    { min_sz_bytes := 0, max_sz_bytes := 0,
      min_nr_accesses := ⟨0, 0⟩, max_nr_accesses := ⟨0, 0⟩,
      nr_accesses_unit := unit_percent,
      min_age := 0, max_age := 0, age_unit := unit_usec }
  action := "stat"
  quotas :=
    { time_ms := 0, sz_bytes := 0, reset_interval_ms := 0,
      weight_sz_permil := 0, weight_nr_accesses_permil := 0, weight_age_permil := 0 }
  watermarks :=
    { metric := "none", interval_us := 0, high_permil := 0, mid_permil := 0, low_permil := 0 }
  filters := []

/-! ## The scheme line decoder (`_damo_schemes_input.py`)

Python evaluates `parser(fields[i])` by indexing and then converting, and
any exception from either step is caught uniformly; `parse_at` is that
composite as one `Option` step.  (It also keeps every chain below short:
the Lean compiler's code generator degrades steeply on long `Option.bind`
chains, so each source function's bind chain is kept flat and the 18-field
branch bodies of the decoder live in their own layer definitions.) -/

def parse_at {α : Type} (p : String → Option α) (fields : List String) (i : Nat) :
    Option α :=
  (fields[i]?).bind p

/-- `fields_to_v0_scheme`: access pattern and action from fields 0–6. -/
def fields_to_v0_scheme (fields : List String) : Option Damos := do
  let min_sz ← parse_at text_to_bytes fields 0
  let max_sz ← parse_at text_to_bytes fields 1
  let min_acc ← parse_at text_to_percent fields 2
  let max_acc ← parse_at text_to_percent fields 3
  let min_age_v ← parse_at text_to_us fields 4
  let max_age_v ← parse_at text_to_us fields 5
  let f6 ← fields[6]?
  pure { default_damos_scheme with
    access_pattern :=
      { min_sz_bytes := min_sz, max_sz_bytes := max_sz,
        min_nr_accesses := min_acc, max_nr_accesses := max_acc,
        nr_accesses_unit := unit_percent,
        min_age := min_age_v, max_age := max_age_v, age_unit := unit_usec },
    action := pyLower f6 }

/-- `fields_to_v1_scheme`: v0 plus the size-only quotas (fields 7–8). -/
def fields_to_v1_scheme (fields : List String) : Option Damos := do
  let scheme ← fields_to_v0_scheme fields
  let q_sz ← parse_at text_to_bytes fields 7
  let q_ri ← parse_at text_to_ms fields 8
  pure { scheme with quotas :=
    { scheme.quotas with sz_bytes := q_sz, reset_interval_ms := q_ri } }

/-- `fields_to_v2_scheme`: v1 plus the three priority weights (fields 9–11). -/
def fields_to_v2_scheme (fields : List String) : Option Damos := do
  let scheme ← fields_to_v1_scheme fields
  let w_sz ← parse_at pyInt fields 9
  let w_acc ← parse_at pyInt fields 10
  let w_age ← parse_at pyInt fields 11
  pure { scheme with quotas :=
    { scheme.quotas with
        weight_sz_permil := w_sz,
        weight_nr_accesses_permil := w_acc,
        weight_age_permil := w_age } }

/-- `fields_to_v3_scheme`: v2 plus the five watermark fields (fields 12–16). -/
def fields_to_v3_scheme (fields : List String) : Option Damos := do
  let scheme ← fields_to_v2_scheme fields
  let f12 ← fields[12]?
  let wm_int ← parse_at text_to_us fields 13
  let wm_high ← parse_at pyInt fields 14
  let wm_mid ← parse_at pyInt fields 15
  let wm_low ← parse_at pyInt fields 16
  pure { scheme with watermarks :=
    { metric := pyLower f12,
      interval_us := wm_int,
      high_permil := wm_high,
      mid_permil := wm_mid,
      low_permil := wm_low } }

/-- `fields_to_v4_scheme`: v0 plus the full quota set (with time budget) and
watermarks, in the 18-field layout (fields 7–17). -/
def fields_to_v4_scheme (fields : List String) : Option Damos := do
  let scheme ← fields_to_v0_scheme fields
  let q_tm ← parse_at text_to_ms fields 7
  let q_sz ← parse_at text_to_bytes fields 8
  let q_ri ← parse_at text_to_ms fields 9
  let w_sz ← parse_at pyInt fields 10
  let w_acc ← parse_at pyInt fields 11
  let w_age ← parse_at pyInt fields 12
  let f13 ← fields[13]?
  let wm_int ← parse_at text_to_us fields 14
  let wm_high ← parse_at pyInt fields 15
  let wm_mid ← parse_at pyInt fields 16
  let wm_low ← parse_at pyInt fields 17
  pure { scheme with
    quotas :=
      { scheme.quotas with
          time_ms := q_tm,
          sz_bytes := q_sz,
          reset_interval_ms := q_ri,
          weight_sz_permil := w_sz,
          weight_nr_accesses_permil := w_acc,
          weight_age_permil := w_age },
    watermarks :=
      { metric := pyLower f13,
        interval_us := wm_int,
        high_permil := wm_high,
        mid_permil := wm_mid,
        low_permil := wm_low } }

/-- The accepted field counts of `damo_single_line_scheme_to_damos`. -/
def expected_lengths : List Nat := [7, 9, 12, 17, 18]

/-- A single-quote character as a string (for the schema-mismatch message). -/
def single_quote : String := String.mk ['\'']

/-- The schema-mismatch diagnostic: Python
`'expected %s fields, but %s'` over `(expected_lengths, line)` with the
line quoted, rendering `expected_lengths` the way Python prints the list. -/
def schema_mismatch_msg (line : String) : String :=
  "expected [7, 9, 12, 17, 18] fields, but " ++ single_quote ++ line ++ single_quote

/-- Lines 168–172 of `damo_single_line_scheme_to_damos`: the `>=v1`
size-only quota layer, applied when the count is at least 9. -/
def single_line_sz_quota_layer (fields : List String) (scheme : Damos) : Option Damos := do
  let q_sz ← parse_at text_to_bytes fields 7
  let q_ri ← parse_at text_to_ms fields 8
  pure { scheme with quotas :=
    { scheme.quotas with sz_bytes := q_sz, reset_interval_ms := q_ri } }

/-- Lines 173–177: the `>=v2` priority-weight layer, applied when the count
is at least 12. -/
def single_line_weights_layer (fields : List String) (scheme : Damos) : Option Damos := do
  let w_sz ← parse_at pyInt fields 9
  let w_acc ← parse_at pyInt fields 10
  let w_age ← parse_at pyInt fields 11
  pure { scheme with quotas :=
    { scheme.quotas with
        weight_sz_permil := w_sz,
        weight_nr_accesses_permil := w_acc,
        weight_age_permil := w_age } }

/-- Lines 178–185: the `v3` watermark layer, applied when the count is
exactly 17. -/
def single_line_watermarks_layer (fields : List String) (scheme : Damos) : Option Damos := do
  let f12 ← fields[12]?
  let wm_int ← parse_at text_to_us fields 13
  let wm_high ← parse_at pyInt fields 14
  let wm_mid ← parse_at pyInt fields 15
  let wm_low ← parse_at pyInt fields 16
  pure { scheme with watermarks :=
    { metric := pyLower f12,
      interval_us := wm_int,
      high_permil := wm_high,
      mid_permil := wm_mid,
      low_permil := wm_low } }

/-- Lines 187–202: the `v4` 18-field layout — full quotas (restoring the
time budget at field 7) and watermarks at fields 13–17. -/
def single_line_v4_layer (fields : List String) (scheme : Damos) : Option Damos := do
  let q_tm ← parse_at text_to_ms fields 7
  let q_sz ← parse_at text_to_bytes fields 8
  let q_ri ← parse_at text_to_ms fields 9
  let w_sz ← parse_at pyInt fields 10
  let w_acc ← parse_at pyInt fields 11
  let w_age ← parse_at pyInt fields 12
  let f13 ← fields[13]?
  let wm_int ← parse_at text_to_us fields 14
  let wm_high ← parse_at pyInt fields 15
  let wm_mid ← parse_at pyInt fields 16
  let wm_low ← parse_at pyInt fields 17
  pure { scheme with
    quotas :=
      { scheme.quotas with
          time_ms := q_tm,
          sz_bytes := q_sz,
          reset_interval_ms := q_ri,
          weight_sz_permil := w_sz,
          weight_nr_accesses_permil := w_acc,
          weight_age_permil := w_age },
    watermarks :=
      { metric := pyLower f13,
        interval_us := wm_int,
        high_permil := wm_high,
        mid_permil := wm_mid,
        low_permil := wm_low } }

/-- The `try` body of `damo_single_line_scheme_to_damos` (lines 151–205):
`none` is a raised conversion exception; the source's incremental `if`
layering over field ranges is kept, with each layer's field mapping in its
definition above.  The final `unsupported version` return (line 205) is the
fall-through for counts no branch handles. -/
def damo_single_line_scheme_body (fields : List String) : Option (Except String Damos) := do
  let min_sz ← parse_at text_to_bytes fields 0
  let max_sz ← parse_at text_to_bytes fields 1
  let min_acc ← parse_at text_to_percent fields 2
  let max_acc ← parse_at text_to_percent fields 3
  let min_age_v ← parse_at text_to_us fields 4
  let max_age_v ← parse_at text_to_us fields 5
  let f6 ← fields[6]?
  let scheme : Damos := { default_damos_scheme with
    access_pattern :=
      { min_sz_bytes := min_sz, max_sz_bytes := max_sz,
        min_nr_accesses := min_acc, max_nr_accesses := max_acc,
        nr_accesses_unit := unit_percent,
        min_age := min_age_v, max_age := max_age_v, age_unit := unit_usec },
    action := pyLower f6 }
  if fields.length = 7 then
    pure (.ok scheme)
  else if fields.length ≤ 17 then
    (if 9 ≤ fields.length then single_line_sz_quota_layer fields scheme
      else some scheme).bind (fun scheme1 =>
    (if 12 ≤ fields.length then single_line_weights_layer fields scheme1
      else some scheme1).bind (fun scheme2 =>
    (if fields.length = 17 then single_line_watermarks_layer fields scheme2
      else some scheme2).bind (fun scheme3 =>
    some (.ok scheme3))))
  else if fields.length = 18 then
    (single_line_v4_layer fields scheme).bind (fun scheme4 => some (.ok scheme4))
  else
    pure (.error "unsupported version of single line scheme")

/-- `damo_single_line_scheme_to_damos(line, name)` — the Python pair
`(damos, err)` becomes `Except`.  The `name` argument is kept exactly as in
the source, where it is never read. -/
def damo_single_line_scheme_to_damos (line name : String) : Except String Damos :=
  let fields := pyWords line
  if fields.length ∈ expected_lengths then
    match damo_single_line_scheme_body fields with
    | some r => r
    | none => .error "wrong input field"
  else .error (schema_mismatch_msg line)

/-! ## The scheme document decoder -/

/-- `damo_schemes_lines_except_comments`: split the stripped text into
lines and drop every line whose stripped form starts with `#`. -/
def damo_schemes_lines_except_comments (txt : String) : List String :=
  ((splitOnChar '\n' (pyStrip txt.data)).filter
      (fun l => !startsHash (pyStrip l))).map String.mk

/-- Join with newlines (Python `'\n'.join`). -/
def joinNl : List String → String
  | [] => ""
  | [l] => l
  | l :: rest => l ++ "\n" ++ joinNl rest

/-- The line-oriented fallback loop of `damo_schemes_to_damos`: blank lines
are skipped, every other line goes through the line decoder under its
enumeration index as name, and the first failure aborts the whole decode
with the fatal user-facing diagnostic (the Python `print` + `exit(1)`). -/
def damo_schemes_fallback (idx : Nat) : List String → Except String (List Damos)
  | [] => .ok []
  | l :: rest =>
    let line := pyStripStr l
    if line = "" then damo_schemes_fallback (idx + 1) rest
    else
      match damo_single_line_scheme_to_damos line (toString idx) with
      | .error err =>
        .error ("given scheme is neither file nor proper scheme string (" ++ err ++ ")")
      | .ok damos => (damo_schemes_fallback (idx + 1) rest).map (damos :: ·)

/-- Sequential fallible map, the semantics of the Python list
comprehension `[conv(kv) for kv in kvpairs]` (first exception aborts). -/
def mapOpt {α β : Type} (f : α → Option β) : List α → Option (List β)
  | [] => some []
  | a :: l => (f a).bind fun b => (mapOpt f l).map (b :: ·)

/-- `damo_schemes_to_damos`.  The JSON parser (`json.loads`) and the
per-object converter (`_damon.kvpairs_to_Damos`) are external collaborators
and enter as parameters; the Python `try` block covers both the parse and
the conversion comprehension, so the whole JSON attempt is their `Option`
composition and any failure inside it falls through to the line-oriented
path.  The optional up-front file read is I/O outside the embedding: the
decoder body operates on the document text. -/
def damo_schemes_to_damos (json_loads : String → Option (List String))
    (kvpairs_to_Damos : String → Option Damos) (damo_schemes : String) :
    Except String (List Damos) :=
  let damo_schemes_lines := damo_schemes_lines_except_comments damo_schemes
  match (json_loads (joinNl damo_schemes_lines)).bind
      (fun kvpairs => mapOpt kvpairs_to_Damos kvpairs) with
  | some damos_list => .ok damos_list
  | none => damo_schemes_fallback 0 damo_schemes_lines

/-- The record the line decoder produces for the 7-field line
`min max 0% 100% 0 max stat` (used by concrete instantiations below). -/
def stat_scheme_example : Damos :=
  { default_damos_scheme with
    access_pattern :=
      { min_sz_bytes := 0, max_sz_bytes := ulong_max,
        min_nr_accesses := ⟨0, 0⟩, max_nr_accesses := ⟨100, 0⟩,
        nr_accesses_unit := unit_percent,
        min_age := 0, max_age := ulong_max, age_unit := unit_usec },
    action := "stat" }

instance {ε α : Type} [DecidableEq ε] [DecidableEq α] : DecidableEq (Except ε α) := fun x y =>
  match x, y with
  | .error a, .error b =>
    if h : a = b then .isTrue (by rw [h]) else .isFalse (fun hc => by cases hc; exact h rfl)
  | .error _, .ok _ => .isFalse (fun hc => by cases hc)
  | .ok _, .error _ => .isFalse (fun hc => by cases hc)
  | .ok a, .ok b =>
    if h : a = b then .isTrue (by rw [h]) else .isFalse (fun hc => by cases hc; exact h rfl)

/-- The record the line decoder produces for the 18-field line
`min max 0% 100% 0 max stat 5ms 4K 1s 1 2 3 none 5us 600 500 400`. -/
def v4_scheme_example : Damos :=
  { stat_scheme_example with
    quotas :=
      { time_ms := 5, sz_bytes := 4096, reset_interval_ms := 1000,
        weight_sz_permil := 1, weight_nr_accesses_permil := 2, weight_age_permil := 3 },
    watermarks :=
      { metric := "none", interval_us := 5, high_permil := 600, mid_permil := 500,
        low_permil := 400 } }

/-! ## Sanity fixtures

The behavioral fixtures of `tests/unittest/test_fmt_str.py`, evaluated on
the modelled value parser and formatter. -/

example : text_to_nr "12" = some ⟨12, 0⟩ := by decide
example : text_to_nr "1,234" = some ⟨1234, 0⟩ := by decide
example : text_to_nr "1,234.567" = some ⟨1234567, 3⟩ := by decide
example : text_to_nr "1,234,567" = some ⟨1234567, 0⟩ := by decide
example : format_nr 123 false = "123" := by decide
example : format_nr 1234 false = "1,234" := by decide
example : format_nr 1234567 false = "1,234,567" := by decide
example : text_to_bytes "123" = some 123 := by decide
example : text_to_bytes "123 B" = some 123 := by decide
example : text_to_bytes "2 K" = some 2048 := by decide
example : text_to_bytes "2 KiB" = some 2048 := by decide
example : text_to_bytes "2 G" = some (2 * 2 ^ 30) := by decide
example : text_to_bytes "1,234.457 G" = some 1325488110829 := by decide
example : text_to_bytes "1,234.457" = some 1234 := by decide
example : text_to_bytes "2 T" = some (2 * 2 ^ 40) := by decide
example : text_to_bytes "2 P" = some (2 * 2 ^ 50) := by decide
example : text_to_bytes "2.0 PiB" = some (2 * 2 ^ 50) := by decide
example : text_to_bytes "2.0 EiB" = some (2 * 2 ^ 60) := by decide
example : text_to_ns "1" = some 1 := by decide
example : text_to_ns "1 ns" = some 1 := by decide
example : text_to_us "1 us" = some 1 := by decide
example : text_to_us "1234 us" = some 1234 := by decide
example : text_to_us "1,234 us" = some 1234 := by decide
example : text_to_us "1234us" = some 1234 := by decide
example : text_to_us "1 ms" = some 1000 := by decide
example : text_to_us "3 d 2 h 1 m 2 s" =
  some (3 * 24 * 60 * 60 * 1000 * 1000 + 7262 * 1000 * 1000) := by decide
example : text_to_ms "134" = some 134 := by decide
example : text_to_ms "max" = some ulong_max := by decide
example : text_to_percent "10%" = some ⟨10, 0⟩ := by decide
example : text_to_percent "12.34 %" = some ⟨1234, 2⟩ := by decide
example : text_to_percent "1,234.567,89 %" = some ⟨123456789, 5⟩ := by decide
example : format_time_ns 123 false = "123 ns" := by decide
example : format_time_ns 123456 false = "123.456 us" := by decide
example : format_time_ns 123456789 false = "123.457 ms" := by decide
example : format_time_ns 123456789123 false = "2 m 3.457 s" := by decide
example : format_time_ns (2 * hour_ns + 1 * minute_ns + 59 * sec_ns + 123 * msec_ns) false =
  "2 h 1 m 59.123 s" := by decide
example : format_time_ns (1234 * day_ns + 2 * hour_ns) false = "29618 h" := by decide

/-- The documented five-line example block decodes to exactly the five
actions, in order (spec §8). -/
example :
    ((damo_schemes_to_damos (fun _ => none) (fun _ => none)
      "min    max      80      max     100ms   max willneed\nmin     max     10      20      200ms   1h  cold\nmin     max     0       10      60s     max pageout\n2M      max     90      100     100ms   max hugepage\n2M      max     0       25      100ms   max nohugepage").map
      (fun l => l.map Damos.action)) =
    .ok ["willneed", "cold", "pageout", "hugepage", "nohugepage"] := by decide

/-! ## C1: the field-count gate -/

/-- C1: the Scheme Line Decoder succeeds only when the whitespace-split
field count is one of exactly 7, 9, 12, 17 or 18; for any other count it
returns no record and fails with the diagnostic that enumerates the
accepted counts and quotes the offending line. -/
theorem damo_single_line_scheme_field_count_gate (line name : String) :
    ((pyWords line).length ∉ ([7, 9, 12, 17, 18] : List Nat) →
      damo_single_line_scheme_to_damos line name =
        .error ("expected [7, 9, 12, 17, 18] fields, but " ++
          single_quote ++ line ++ single_quote))
    ∧ (∀ s, damo_single_line_scheme_to_damos line name = .ok s →
        (pyWords line).length ∈ ([7, 9, 12, 17, 18] : List Nat)) := by
  constructor
  · intro h
    have h' : (pyWords line).length ∉ expected_lengths := by
      simpa [expected_lengths] using h
    simp [damo_single_line_scheme_to_damos, h', schema_mismatch_msg]
  · intro s hs
    by_contra hn
    have h' : (pyWords line).length ∉ expected_lengths := by
      simpa [expected_lengths] using hn
    simp [damo_single_line_scheme_to_damos, h'] at hs

/-- Witness for C1 at the 3-field line `a b c`. -/
theorem damo_single_line_scheme_field_count_gate_witness :
    damo_single_line_scheme_to_damos "a b c" "0" =
      .error ("expected [7, 9, 12, 17, 18] fields, but " ++
        single_quote ++ "a b c" ++ single_quote) :=
  (damo_single_line_scheme_field_count_gate "a b c" "0").1 (by decide)

/-! ## C6: the duration parser -/

/-- C6: the duration parser sums space-separated `(number, unit)` pairs in
a common base and converts to the target unit; a bare number is already in
the target unit; the `max` sentinel yields `2 ^ 64 - 1`. -/
theorem text_to_time_sum_bare_and_max :
    text_to_us "2 h 1 m 2 s" = some (7262 * 1000000)
    ∧ text_to_us "134" = some 134
    ∧ text_to_us "max" = some (2 ^ 64 - 1)
    ∧ text_to_us "1 m 2 s" = some (62 * 1000000)
    ∧ text_to_ns "max" = some (2 ^ 64 - 1)
    ∧ text_to_ms "max" = some (2 ^ 64 - 1)
    ∧ text_to_ms "134" = some 134 :=
  ⟨by decide, by decide, by decide, by decide, by decide, by decide, by decide⟩

/-! ## C3: JSON routing in the document decoder -/

/-- Counterexample to C3 as stated: with a JSON parse that succeeds on the
document `x` (returning one object) but whose per-object conversion fails,
the decoder still runs — and returns the result of — the line-oriented
fallback, so the per-line path is not attempted only on JSON parse
failure. -/
theorem damo_schemes_json_success_still_falls_back :
    (fun _ => some ["kv"] : String → Option (List String))
        (joinNl (damo_schemes_lines_except_comments "x")) = some ["kv"]
    ∧ damo_schemes_to_damos (fun _ => some ["kv"]) (fun _ => none) "x" =
        damo_schemes_fallback 0 (damo_schemes_lines_except_comments "x")
    ∧ damo_schemes_to_damos (fun _ => some ["kv"]) (fun _ => none) "x" =
        .error ("given scheme is neither file nor proper scheme string (" ++
          "expected [7, 9, 12, 17, 18] fields, but " ++
          single_quote ++ "x" ++ single_quote ++ ")") :=
  ⟨rfl, by decide, by decide⟩

/-- C3 (amended): the line-oriented path runs exactly when the whole JSON
attempt — the parse composed with the per-object conversions — fails; when
parse and all conversions succeed the result is exactly the JSON path's
records and the line decoder contributes nothing. -/
theorem damo_schemes_json_route (json_loads : String → Option (List String))
    (kvpairs_to_Damos : String → Option Damos) (txt : String) :
    (∀ ds, (json_loads (joinNl (damo_schemes_lines_except_comments txt))).bind
        (fun kvpairs => mapOpt kvpairs_to_Damos kvpairs) = some ds →
      damo_schemes_to_damos json_loads kvpairs_to_Damos txt = .ok ds)
    ∧ ((json_loads (joinNl (damo_schemes_lines_except_comments txt))).bind
        (fun kvpairs => mapOpt kvpairs_to_Damos kvpairs) = none →
      damo_schemes_to_damos json_loads kvpairs_to_Damos txt =
        damo_schemes_fallback 0 (damo_schemes_lines_except_comments txt)) := by
  constructor
  · intro ds h
    simp [damo_schemes_to_damos, h]
  · intro h
    simp [damo_schemes_to_damos, h]

/-- Witness for C3 (amended): an empty JSON array decodes through the JSON
path to no records. -/
theorem damo_schemes_json_route_witness :
    damo_schemes_to_damos (fun _ => some []) (fun _ => none) "x" = .ok [] :=
  (damo_schemes_json_route (fun _ => some []) (fun _ => none) "x").1 [] rfl

/-! ## C7: the line decoder drops the caller-supplied name -/

/-- C7 (the code bug): the line decoder never reads the `name` it is given,
so on a two-line document both records are identical — they cannot carry
their line indices `0` and `1` as names. -/
theorem damo_single_line_scheme_ignores_name :
    (∀ line n₁ n₂, damo_single_line_scheme_to_damos line n₁ =
        damo_single_line_scheme_to_damos line n₂)
    ∧ (∃ a b, damo_schemes_to_damos (fun _ => none) (fun _ => none)
          "min max 0% 100% 0 max stat\nmin max 0% 100% 0 max stat" = .ok [a, b]
        ∧ a = b ∧ ¬(a.name = "0" ∧ b.name = "1")) := by
  refine ⟨fun line n₁ n₂ => rfl, stat_scheme_example, stat_scheme_example, by decide, rfl, ?_⟩
  rintro ⟨h0, h1⟩
  rw [h0] at h1
  exact absurd h1 (by decide)

/-! ## C4: the line fallback is all-or-nothing -/

/-- The name argument does not influence the line decoder (its binder is
dead in the source); definitional. -/
theorem single_line_name_irrelevant (line n₁ n₂ : String) :
    damo_single_line_scheme_to_damos line n₁ = damo_single_line_scheme_to_damos line n₂ := rfl

/-- `mapOpt` succeeds with one output element per input element. -/
theorem mapOpt_length {α β : Type} (f : α → Option β) :
    ∀ (L : List α) (ds : List β), mapOpt f L = some ds → ds.length = L.length := by
  intro L
  induction L with
  | nil => intro ds h; simp [mapOpt] at h; simp [h.symm]
  | cons a l ih =>
    intro ds h
    simp only [mapOpt, Option.bind_eq_some] at h
    obtain ⟨b, hb, h⟩ := h
    cases hmap : mapOpt f l with
    | none => rw [hmap] at h; simp at h
    | some ds' =>
      rw [hmap] at h
      simp at h
      subst h
      simp [ih ds' hmap]

/-- Behaviour of the fallback loop, for any starting index: it returns a
list exactly when every stripped non-blank line decodes (one record per
such line, in order), and on any line-decode failure it aborts with the
fatal wrapped diagnostic of a failing line. -/
theorem damo_schemes_fallback_spec (lines : List String) : ∀ idx : Nat,
    (∀ ds, damo_schemes_fallback idx lines = .ok ds ↔
      mapOpt (fun l => (damo_single_line_scheme_to_damos l "0").toOption)
        ((lines.map pyStripStr).filter (fun l => l ≠ "")) = some ds)
    ∧ (mapOpt (fun l => (damo_single_line_scheme_to_damos l "0").toOption)
        ((lines.map pyStripStr).filter (fun l => l ≠ "")) = none →
      ∃ l ∈ (lines.map pyStripStr).filter (fun l => l ≠ ""), ∃ e,
        damo_single_line_scheme_to_damos l "0" = .error e ∧
        damo_schemes_fallback idx lines =
          .error ("given scheme is neither file nor proper scheme string (" ++ e ++ ")")) := by
  induction lines with
  | nil =>
    intro idx
    constructor
    · intro ds
      simp [damo_schemes_fallback, mapOpt]
    · intro h
      simp [mapOpt] at h
  | cons l rest ih =>
    intro idx
    by_cases hb : pyStripStr l = ""
    · have hfb : damo_schemes_fallback idx (l :: rest) = damo_schemes_fallback (idx + 1) rest := by
        simp [damo_schemes_fallback, hb]
      have hfil : ((l :: rest).map pyStripStr).filter (fun l => l ≠ "") =
          (rest.map pyStripStr).filter (fun l => l ≠ "") := by
        simp [List.filter_cons, hb]
      rw [hfb, hfil]
      exact ih (idx + 1)
    · have hfil : ((l :: rest).map pyStripStr).filter (fun l => l ≠ "") =
          pyStripStr l :: (rest.map pyStripStr).filter (fun l => l ≠ "") := by
        simp [List.filter_cons, hb]
      have hname : damo_single_line_scheme_to_damos (pyStripStr l) "0" =
          damo_single_line_scheme_to_damos (pyStripStr l) (toString idx) := rfl
      cases hdec : damo_single_line_scheme_to_damos (pyStripStr l) (toString idx) with
      | error e =>
        have hfb : damo_schemes_fallback idx (l :: rest) =
            .error ("given scheme is neither file nor proper scheme string (" ++ e ++ ")") := by
          simp [damo_schemes_fallback, hb, hdec]
        have hmap : mapOpt (fun l => (damo_single_line_scheme_to_damos l "0").toOption)
            (((l :: rest).map pyStripStr).filter (fun l => l ≠ "")) = none := by
          rw [hfil]
          simp [mapOpt, hname, hdec, Except.toOption]
        constructor
        · intro ds
          rw [hfb, hmap]
          simp
        · intro _
          refine ⟨pyStripStr l, ?_, e, by rw [hname, hdec], hfb⟩
          rw [hfil]; exact List.mem_cons_self _ _
      | ok d =>
        have hfb : damo_schemes_fallback idx (l :: rest) =
            (damo_schemes_fallback (idx + 1) rest).map (d :: ·) := by
          simp [damo_schemes_fallback, hb, hdec]
        have hmap : mapOpt (fun l => (damo_single_line_scheme_to_damos l "0").toOption)
            (((l :: rest).map pyStripStr).filter (fun l => l ≠ "")) =
            (mapOpt (fun l => (damo_single_line_scheme_to_damos l "0").toOption)
              ((rest.map pyStripStr).filter (fun l => l ≠ ""))).map (d :: ·) := by
          rw [hfil]
          simp [mapOpt, hname, hdec, Except.toOption]
        constructor
        · intro ds
          rw [hfb, hmap]
          cases hrest : damo_schemes_fallback (idx + 1) rest with
          | error e' =>
            cases hm : mapOpt (fun l => (damo_single_line_scheme_to_damos l "0").toOption)
                ((rest.map pyStripStr).filter (fun l => l ≠ "")) with
            | none => simp [Except.map]
            | some ds' =>
              exact absurd (((ih (idx + 1)).1 ds').mpr hm) (by simp [hrest])
          | ok ds' =>
            have hm := ((ih (idx + 1)).1 ds').mp hrest
            rw [hm]
            simp [Except.map]
        · intro hnone
          rw [hmap] at hnone
          have hm : mapOpt (fun l => (damo_single_line_scheme_to_damos l "0").toOption)
              ((rest.map pyStripStr).filter (fun l => l ≠ "")) = none := by
            cases hm' : mapOpt (fun l => (damo_single_line_scheme_to_damos l "0").toOption)
                ((rest.map pyStripStr).filter (fun l => l ≠ "")) with
            | none => rfl
            | some ds' => rw [hm'] at hnone; simp at hnone
          obtain ⟨l', hmem, e, hde, hfb'⟩ := (ih (idx + 1)).2 hm
          refine ⟨l', ?_, e, hde, ?_⟩
          · rw [hfil]; exact List.mem_cons_of_mem _ hmem
          · rw [hfb, hfb']
            simp [Except.map]

/-- When the JSON attempt fails as a whole, the document decoder is the
fallback loop on the comment-stripped lines. -/
theorem damo_schemes_to_damos_json_none (json_loads : String → Option (List String))
    (kvpairs_to_Damos : String → Option Damos) (txt : String)
    (hjson : (json_loads (joinNl (damo_schemes_lines_except_comments txt))).bind
        (fun kvpairs => mapOpt kvpairs_to_Damos kvpairs) = none) :
    damo_schemes_to_damos json_loads kvpairs_to_Damos txt =
      damo_schemes_fallback 0 (damo_schemes_lines_except_comments txt) := by
  simp [damo_schemes_to_damos, hjson]

/-- C4: on the line-oriented path, the document decoder returns a list
exactly when every stripped non-blank, non-comment line decodes — one
record per such line, in input order — and any line failure aborts the
whole decode with the fatal diagnostic wrapping that line's reason; no
partial list is ever returned. -/
theorem damo_schemes_line_fallback_all_or_nothing
    (json_loads : String → Option (List String))
    (kvpairs_to_Damos : String → Option Damos) (txt : String)
    (hjson : (json_loads (joinNl (damo_schemes_lines_except_comments txt))).bind
        (fun kvpairs => mapOpt kvpairs_to_Damos kvpairs) = none) :
    (∀ ds, damo_schemes_to_damos json_loads kvpairs_to_Damos txt = .ok ds ↔
      mapOpt (fun l => (damo_single_line_scheme_to_damos l "0").toOption)
        (((damo_schemes_lines_except_comments txt).map pyStripStr).filter (fun l => l ≠ "")) =
        some ds)
    ∧ (∀ ds, damo_schemes_to_damos json_loads kvpairs_to_Damos txt = .ok ds →
        ds.length =
          ((((damo_schemes_lines_except_comments txt).map pyStripStr).filter
            (fun l => l ≠ ""))).length)
    ∧ (mapOpt (fun l => (damo_single_line_scheme_to_damos l "0").toOption)
        (((damo_schemes_lines_except_comments txt).map pyStripStr).filter (fun l => l ≠ "")) =
          none →
      ∃ l ∈ ((damo_schemes_lines_except_comments txt).map pyStripStr).filter (fun l => l ≠ ""),
        ∃ e, damo_single_line_scheme_to_damos l "0" = .error e ∧
          damo_schemes_to_damos json_loads kvpairs_to_Damos txt =
            .error ("given scheme is neither file nor proper scheme string (" ++ e ++ ")")) := by
  have hroute := damo_schemes_to_damos_json_none json_loads kvpairs_to_Damos txt hjson
  have hspec := damo_schemes_fallback_spec (damo_schemes_lines_except_comments txt) 0
  refine ⟨fun ds => ?_, fun ds hds => ?_, fun hnone => ?_⟩
  · rw [hroute]; exact hspec.1 ds
  · rw [hroute] at hds
    exact mapOpt_length _ _ ds ((hspec.1 ds).mp hds)
  · obtain ⟨l, hmem, e, hde, hfb⟩ := hspec.2 hnone
    exact ⟨l, hmem, e, hde, by rw [hroute, hfb]⟩

/-- Witness for C4: with no JSON parse, a one-line document decodes to
exactly one record. -/
theorem damo_schemes_line_fallback_all_or_nothing_witness :
    damo_schemes_to_damos (fun _ => none) (fun _ => none)
      "min max 0% 100% 0 max stat" = .ok [stat_scheme_example] :=
  ((damo_schemes_line_fallback_all_or_nothing (fun _ => none) (fun _ => none)
    "min max 0% 100% 0 max stat" rfl).1 [stat_scheme_example]).mpr (by decide)

/-! ## C10: standalone version functions agree with the inline decoder -/

theorem opt_bind_eq {α β : Type} (x : Option α) (f : α → Option β) : x >>= f = x.bind f := rfl

theorem opt_pure_eq {α : Type} (a : α) : (pure a : Option α) = some a := rfl

/-- `fields_to_v1_scheme` is v0 followed by the size-quota layer
(definitional: the two transcriptions share their bind chain shape). -/
theorem fields_to_v1_split (fields : List String) :
    fields_to_v1_scheme fields =
      (fields_to_v0_scheme fields).bind (single_line_sz_quota_layer fields) := rfl

theorem fields_to_v2_split (fields : List String) :
    fields_to_v2_scheme fields =
      (fields_to_v1_scheme fields).bind (single_line_weights_layer fields) := rfl

theorem fields_to_v3_split (fields : List String) :
    fields_to_v3_scheme fields =
      (fields_to_v2_scheme fields).bind (single_line_watermarks_layer fields) := rfl

theorem fields_to_v4_split (fields : List String) :
    fields_to_v4_scheme fields =
      (fields_to_v0_scheme fields).bind (single_line_v4_layer fields) := rfl

/-- The decoder body is the v0 parse followed by the field-count dispatch
over the incremental layers. -/
theorem damo_single_line_scheme_body_split (fields : List String) :
    damo_single_line_scheme_body fields =
      (fields_to_v0_scheme fields).bind (fun scheme =>
        if fields.length = 7 then some (.ok scheme)
        else if fields.length ≤ 17 then
          (if 9 ≤ fields.length then single_line_sz_quota_layer fields scheme
            else some scheme).bind (fun scheme1 =>
          (if 12 ≤ fields.length then single_line_weights_layer fields scheme1
            else some scheme1).bind (fun scheme2 =>
          (if fields.length = 17 then single_line_watermarks_layer fields scheme2
            else some scheme2).bind (fun scheme3 =>
          some (.ok scheme3))))
        else if fields.length = 18 then
          (single_line_v4_layer fields scheme).bind (fun scheme4 => some (.ok scheme4))
        else some (.error "unsupported version of single line scheme")) := by
  simp only [damo_single_line_scheme_body, fields_to_v0_scheme,
    opt_bind_eq, opt_pure_eq, Option.bind_assoc, Option.some_bind]

/-- On 7 fields the body is exactly `fields_to_v0_scheme`. -/
theorem damo_single_line_scheme_body_len7 (fields : List String) (h : fields.length = 7) :
    damo_single_line_scheme_body fields = (fields_to_v0_scheme fields).map Except.ok := by
  rw [damo_single_line_scheme_body_split]
  simp [h, Option.map_eq_bind, Function.comp]

/-- On 9 fields the body is exactly `fields_to_v1_scheme`. -/
theorem damo_single_line_scheme_body_len9 (fields : List String) (h : fields.length = 9) :
    damo_single_line_scheme_body fields = (fields_to_v1_scheme fields).map Except.ok := by
  rw [damo_single_line_scheme_body_split, fields_to_v1_split]
  simp [h, Option.map_eq_bind, Option.bind_assoc, Function.comp]

/-- On 12 fields the body is exactly `fields_to_v2_scheme`. -/
theorem damo_single_line_scheme_body_len12 (fields : List String) (h : fields.length = 12) :
    damo_single_line_scheme_body fields = (fields_to_v2_scheme fields).map Except.ok := by
  rw [damo_single_line_scheme_body_split, fields_to_v2_split, fields_to_v1_split]
  simp [h, Option.map_eq_bind, Option.bind_assoc, Function.comp]

/-- On 17 fields the body is exactly `fields_to_v3_scheme`. -/
theorem damo_single_line_scheme_body_len17 (fields : List String) (h : fields.length = 17) :
    damo_single_line_scheme_body fields = (fields_to_v3_scheme fields).map Except.ok := by
  rw [damo_single_line_scheme_body_split, fields_to_v3_split, fields_to_v2_split,
    fields_to_v1_split]
  simp [Option.map_eq_bind, Option.bind_assoc, Function.comp, h]

/-- On 18 fields the body is exactly `fields_to_v4_scheme`. -/
theorem damo_single_line_scheme_body_len18 (fields : List String) (h : fields.length = 18) :
    damo_single_line_scheme_body fields = (fields_to_v4_scheme fields).map Except.ok := by
  rw [damo_single_line_scheme_body_split, fields_to_v4_split]
  simp [h, Option.map_eq_bind, Option.bind_assoc, Function.comp]

/-- C10: for each accepted field count, when the corresponding standalone
version function succeeds on the split fields, the single-line decoder
returns the very same record — the two decoding paths agree. -/
theorem fields_to_version_schemes_agree_with_single_line (line name : String) :
    ((pyWords line).length = 7 → ∀ s, fields_to_v0_scheme (pyWords line) = some s →
      damo_single_line_scheme_to_damos line name = .ok s)
    ∧ ((pyWords line).length = 9 → ∀ s, fields_to_v1_scheme (pyWords line) = some s →
      damo_single_line_scheme_to_damos line name = .ok s)
    ∧ ((pyWords line).length = 12 → ∀ s, fields_to_v2_scheme (pyWords line) = some s →
      damo_single_line_scheme_to_damos line name = .ok s)
    ∧ ((pyWords line).length = 17 → ∀ s, fields_to_v3_scheme (pyWords line) = some s →
      damo_single_line_scheme_to_damos line name = .ok s)
    ∧ ((pyWords line).length = 18 → ∀ s, fields_to_v4_scheme (pyWords line) = some s →
      damo_single_line_scheme_to_damos line name = .ok s) := by
  refine ⟨fun h s hv => ?_, fun h s hv => ?_, fun h s hv => ?_, fun h s hv => ?_,
    fun h s hv => ?_⟩
  · have hb := damo_single_line_scheme_body_len7 (pyWords line) h
    have hmem : (pyWords line).length ∈ expected_lengths := by rw [h]; decide
    simp [damo_single_line_scheme_to_damos, hmem, hb, hv]
  · have hb := damo_single_line_scheme_body_len9 (pyWords line) h
    have hmem : (pyWords line).length ∈ expected_lengths := by rw [h]; decide
    simp [damo_single_line_scheme_to_damos, hmem, hb, hv]
  · have hb := damo_single_line_scheme_body_len12 (pyWords line) h
    have hmem : (pyWords line).length ∈ expected_lengths := by rw [h]; decide
    simp [damo_single_line_scheme_to_damos, hmem, hb, hv]
  · have hb := damo_single_line_scheme_body_len17 (pyWords line) h
    have hmem : (pyWords line).length ∈ expected_lengths := by rw [h]; decide
    simp [damo_single_line_scheme_to_damos, hmem, hb, hv]
  · have hb := damo_single_line_scheme_body_len18 (pyWords line) h
    have hmem : (pyWords line).length ∈ expected_lengths := by rw [h]; decide
    simp [damo_single_line_scheme_to_damos, hmem, hb, hv]

/-- Witness for C10 at a concrete 7-field line. -/
theorem fields_to_version_schemes_agree_with_single_line_witness :
    damo_single_line_scheme_to_damos "min max 0% 100% 0 max stat" "x" =
      .ok stat_scheme_example :=
  (fields_to_version_schemes_agree_with_single_line "min max 0% 100% 0 max stat" "x").1
    (by decide) stat_scheme_example (by decide)

/-! ## C2: the 18-field layout -/

/-- C2: on an accepted 18-field line, fields 7–17 are mapped in order to
the quota time budget, quota size budget, reset interval, the three
priority weights, the watermark metric, watermark interval and the
high/mid/low thresholds — unlike the 17-field layout, which has no
time-budget field and leaves `time_ms` at its zero default. -/
theorem damo_single_line_scheme_v4_field_mapping (line name : String) (s : Damos)
    (h : damo_single_line_scheme_to_damos line name = .ok s) :
    ((pyWords line).length = 18 →
      parse_at text_to_ms (pyWords line) 7 = some s.quotas.time_ms ∧
      parse_at text_to_bytes (pyWords line) 8 = some s.quotas.sz_bytes ∧
      parse_at text_to_ms (pyWords line) 9 = some s.quotas.reset_interval_ms ∧
      parse_at pyInt (pyWords line) 10 = some s.quotas.weight_sz_permil ∧
      parse_at pyInt (pyWords line) 11 = some s.quotas.weight_nr_accesses_permil ∧
      parse_at pyInt (pyWords line) 12 = some s.quotas.weight_age_permil ∧
      (∃ f13, (pyWords line)[13]? = some f13 ∧ s.watermarks.metric = pyLower f13) ∧
      parse_at text_to_us (pyWords line) 14 = some s.watermarks.interval_us ∧
      parse_at pyInt (pyWords line) 15 = some s.watermarks.high_permil ∧
      parse_at pyInt (pyWords line) 16 = some s.watermarks.mid_permil ∧
      parse_at pyInt (pyWords line) 17 = some s.watermarks.low_permil)
    ∧ ((pyWords line).length = 17 → s.quotas.time_ms = 0) := by
  constructor
  · intro hlen
    have hb := damo_single_line_scheme_body_len18 (pyWords line) hlen
    have hmem : (pyWords line).length ∈ expected_lengths := by rw [hlen]; decide
    have hv4 : fields_to_v4_scheme (pyWords line) = some s := by
      rcases hv : fields_to_v4_scheme (pyWords line) with _ | s'
      · simp [damo_single_line_scheme_to_damos, hmem, hb, hv] at h
      · simp [damo_single_line_scheme_to_damos, hmem, hb, hv] at h
        rw [h]
    rw [fields_to_v4_split] at hv4
    rw [Option.bind_eq_some] at hv4
    obtain ⟨s0, hs0, hlayer⟩ := hv4
    simp only [single_line_v4_layer, opt_bind_eq, opt_pure_eq, Option.bind_eq_some,
      Option.some.injEq] at hlayer
    obtain ⟨q_tm, hq_tm, q_sz, hq_sz, q_ri, hq_ri, w_sz, hw_sz, w_acc, hw_acc, w_age, hw_age,
      f13, hf13, wm_int, hwm_int, wm_high, hwm_high, wm_mid, hwm_mid, wm_low, hwm_low,
      hfin⟩ := hlayer
    subst hfin
    exact ⟨hq_tm, hq_sz, hq_ri, hw_sz, hw_acc, hw_age, ⟨f13, hf13, rfl⟩, hwm_int, hwm_high,
      hwm_mid, hwm_low⟩
  · intro hlen
    have hb := damo_single_line_scheme_body_len17 (pyWords line) hlen
    have hmem : (pyWords line).length ∈ expected_lengths := by rw [hlen]; decide
    have hv3 : fields_to_v3_scheme (pyWords line) = some s := by
      rcases hv : fields_to_v3_scheme (pyWords line) with _ | s'
      · simp [damo_single_line_scheme_to_damos, hmem, hb, hv] at h
      · simp [damo_single_line_scheme_to_damos, hmem, hb, hv] at h
        rw [h]
    rw [fields_to_v3_split, fields_to_v2_split, fields_to_v1_split] at hv3
    simp only [Option.bind_assoc, Option.bind_eq_some] at hv3
    obtain ⟨s0, hs0, s1, hs1, s2, hs2, hs3⟩ := hv3
    simp only [fields_to_v0_scheme, opt_bind_eq, opt_pure_eq, Option.bind_eq_some,
      Option.some.injEq] at hs0
    obtain ⟨a0, -, a1, -, a2, -, a3, -, a4, -, a5, -, a6, -, hs0⟩ := hs0
    simp only [single_line_sz_quota_layer, opt_bind_eq, opt_pure_eq, Option.bind_eq_some,
      Option.some.injEq] at hs1
    obtain ⟨b0, -, b1, -, hs1⟩ := hs1
    simp only [single_line_weights_layer, opt_bind_eq, opt_pure_eq, Option.bind_eq_some,
      Option.some.injEq] at hs2
    obtain ⟨c0, -, c1, -, c2, -, hs2⟩ := hs2
    simp only [single_line_watermarks_layer, opt_bind_eq, opt_pure_eq, Option.bind_eq_some,
      Option.some.injEq] at hs3
    obtain ⟨d0, -, d1, -, d2, -, d3, -, d4, -, hs3⟩ := hs3
    subst hs3
    subst hs2
    subst hs1
    subst hs0
    rfl

/-- Witness for C2 at a concrete 18-field line. -/
theorem damo_single_line_scheme_v4_field_mapping_witness :
    parse_at text_to_ms (pyWords "min max 0% 100% 0 max stat 5ms 4K 1s 1 2 3 none 5us 600 500 400") 7 =
      some v4_scheme_example.quotas.time_ms ∧
    parse_at pyInt (pyWords "min max 0% 100% 0 max stat 5ms 4K 1s 1 2 3 none 5us 600 500 400") 17 =
      some v4_scheme_example.watermarks.low_permil := by
  have hm := (damo_single_line_scheme_v4_field_mapping
    "min max 0% 100% 0 max stat 5ms 4K 1s 1 2 3 none 5us 600 500 400" "x"
    v4_scheme_example (by decide)).1 (by decide)
  exact ⟨hm.1, hm.2.2.2.2.2.2.2.2.2.2⟩

/-! ## C5: byte suffix synonyms and overflow clamping -/

/-- A number-scanner character is never Python whitespace. -/

theorem isNumCh_not_space (c : Char) (h : isNumCh c = true) : pyIsSpace c = false := by
  rcases h' : pyIsSpace c
  · rfl
  · exfalso
    simp only [pyIsSpace, Bool.or_eq_true, beq_iff_eq] at h'
    rcases h' with ((((h' | h') | h') | h') | h') | h' <;> subst h' <;> revert h <;> decide

theorem takeWhile_all_append {α : Type} (p : α → Bool) (l : List α) (x : α) (r : List α)
    (hl : ∀ c ∈ l, p c = true) (hx : p x = false) :
    (l ++ x :: r).takeWhile p = l := by
  induction l with
  | nil => simp [List.takeWhile_cons, hx]
  | cons a t ih =>
    have ha := hl a (List.mem_cons_self a t)
    simp only [List.cons_append, List.takeWhile_cons, ha, if_true]
    rw [ih (fun c hc => hl c (List.mem_cons_of_mem a hc))]

theorem dropWhile_all_append {α : Type} (p : α → Bool) (l : List α) (x : α) (r : List α)
    (hl : ∀ c ∈ l, p c = true) (hx : p x = false) :
    (l ++ x :: r).dropWhile p = x :: r := by
  induction l with
  | nil => simp [List.dropWhile_cons, hx]
  | cons a t ih =>
    have ha := hl a (List.mem_cons_self a t)
    simp only [List.cons_append, List.dropWhile_cons, ha, if_true]
    exact ih (fun c hc => hl c (List.mem_cons_of_mem a hc))

theorem pyStrip_num_suffix (num u : List Char)
    (hnum : ∀ c ∈ num, isNumCh c = true) (hne : num ≠ []) (hu : u ≠ [])
    (hrev : u.reverse.dropWhile pyIsSpace = u.reverse) :
    pyStrip (num ++ ' ' :: u) = num ++ ' ' :: u := by
  obtain ⟨c, num', rfl⟩ := List.exists_cons_of_ne_nil hne
  have hc : pyIsSpace c = false :=
    isNumCh_not_space c (hnum c (List.mem_cons_self c num'))
  have h1 : (c :: num' ++ ' ' :: u).dropWhile pyIsSpace = c :: num' ++ ' ' :: u := by
    simp [List.dropWhile_cons, hc]
  have hne' : u.reverse ≠ [] := by simpa using hu
  have h2 : (c :: num' ++ ' ' :: u).reverse.dropWhile pyIsSpace =
      (c :: num' ++ ' ' :: u).reverse := by
    have : (c :: num' ++ ' ' :: u).reverse = u.reverse ++ (' ' :: (num'.reverse ++ [c])) := by
      simp
    rw [this, List.dropWhile_append]
    rw [hrev]
    simp [hne']
  unfold pyStrip
  rw [h1, h2, List.reverse_reverse]

theorem text_to_bytes_chars_num_suffix (num u : List Char) (mult : Nat)
    (hnum : ∀ c ∈ num, isNumCh c = true) (hne : num ≠ []) (hu : u ≠ [])
    (hrev : u.reverse.dropWhile pyIsSpace = u.reverse)
    (hnsp : u.dropWhile pyIsSpace = u)
    (hmult : bytes_suffix_to_mult u = some mult) :
    text_to_bytes_chars (num ++ ' ' :: u) =
      (text_to_nr_chars num).map (fun q => min (q.scaleBy mult).trunc ulong_max) := by
  have hsp : (' ' ∈ num ++ ' ' :: u) := by simp
  have hmin : ¬(num ++ ' ' :: u = "min".data) := fun heq => absurd (heq ▸ hsp) (by decide)
  have hmax : ¬(num ++ ' ' :: u = "max".data) := fun heq => absurd (heq ▸ hsp) (by decide)
  have htake : (num ++ ' ' :: u).takeWhile isNumCh = num :=
    takeWhile_all_append isNumCh num ' ' u hnum (by decide)
  have hdrop : (num ++ ' ' :: u).dropWhile isNumCh = ' ' :: u :=
    dropWhile_all_append isNumCh num ' ' u hnum (by decide)
  have hsfx : pyStrip (' ' :: u) = u := by
    unfold pyStrip
    rw [List.dropWhile_cons]
    simp only [show pyIsSpace ' ' = true by decide, if_true]
    rw [hnsp, hrev, List.reverse_reverse]
  simp only [text_to_bytes_chars, pyStrip_num_suffix num u hnum hne hu hrev,
    if_neg hmin, if_neg hmax, htake, hdrop, hsfx, hmult]
  cases text_to_nr_chars num <;> simp

/-- C5: the byte parser treats single-letter and IEC suffixes as synonyms
for the same binary multiplier `1024 ^ n` (`2 M` and `2 MiB` both parse to
`2 * 2 ^ 20`, and likewise for every suffix pair after any number text);
when the mathematical result exceeds `2 ^ 64 - 1` it returns exactly
`2 ^ 64 - 1` — clamped, never wrapped and never a failure (`16384.000 PiB`
parses to `2 ^ 64 - 1`), and no parse ever exceeds that bound. -/
theorem text_to_bytes_suffix_synonyms_and_clamp :
    text_to_bytes "2 M" = some (2 * 2 ^ 20)
    ∧ text_to_bytes "2 MiB" = some (2 * 2 ^ 20)
    ∧ text_to_bytes "16384.000 PiB" = some (2 ^ 64 - 1)
    ∧ (∀ s v, text_to_bytes_chars s = some v → v ≤ 2 ^ 64 - 1)
    ∧ (∀ num : List Char, (∀ c ∈ num, isNumCh c = true) →
        text_to_bytes_chars (num ++ ' ' :: "K".data) =
          text_to_bytes_chars (num ++ ' ' :: "KiB".data)
        ∧ text_to_bytes_chars (num ++ ' ' :: "M".data) =
          text_to_bytes_chars (num ++ ' ' :: "MiB".data)
        ∧ text_to_bytes_chars (num ++ ' ' :: "G".data) =
          text_to_bytes_chars (num ++ ' ' :: "GiB".data)
        ∧ text_to_bytes_chars (num ++ ' ' :: "T".data) =
          text_to_bytes_chars (num ++ ' ' :: "TiB".data)
        ∧ text_to_bytes_chars (num ++ ' ' :: "P".data) =
          text_to_bytes_chars (num ++ ' ' :: "PiB".data)
        ∧ text_to_bytes_chars (num ++ ' ' :: "E".data) =
          text_to_bytes_chars (num ++ ' ' :: "EiB".data)) := by
  refine ⟨by decide, by decide, by decide, ?_, ?_⟩
  · intro s v hv
    simp only [text_to_bytes_chars] at hv
    split_ifs at hv
    · simp at hv
      simp [← hv]
    · simp at hv
      simp [← hv, ulong_max]
    · rcases h1 : text_to_nr_chars ((pyStrip s).takeWhile isNumCh) with _ | q <;>
        rcases h2 : bytes_suffix_to_mult (pyStrip ((pyStrip s).dropWhile isNumCh)) with _ | m <;>
        rw [h1, h2] at hv <;> simp at hv
      rw [← hv, ulong_max]
      exact min_le_right _ _
  · intro num hnum
    by_cases hne : num = []
    · subst hne
      exact ⟨by decide, by decide, by decide, by decide, by decide, by decide⟩
    · refine ⟨?_, ?_, ?_, ?_, ?_, ?_⟩
      · rw [text_to_bytes_chars_num_suffix num "K".data 1024 hnum hne (by decide) (by decide)
            (by decide) (by decide),
          text_to_bytes_chars_num_suffix num "KiB".data 1024 hnum hne (by decide) (by decide)
            (by decide) (by decide)]
      · rw [text_to_bytes_chars_num_suffix num "M".data (1024 ^ 2) hnum hne (by decide)
            (by decide) (by decide) (by decide),
          text_to_bytes_chars_num_suffix num "MiB".data (1024 ^ 2) hnum hne (by decide)
            (by decide) (by decide) (by decide)]
      · rw [text_to_bytes_chars_num_suffix num "G".data (1024 ^ 3) hnum hne (by decide)
            (by decide) (by decide) (by decide),
          text_to_bytes_chars_num_suffix num "GiB".data (1024 ^ 3) hnum hne (by decide)
            (by decide) (by decide) (by decide)]
      · rw [text_to_bytes_chars_num_suffix num "T".data (1024 ^ 4) hnum hne (by decide)
            (by decide) (by decide) (by decide),
          text_to_bytes_chars_num_suffix num "TiB".data (1024 ^ 4) hnum hne (by decide)
            (by decide) (by decide) (by decide)]
      · rw [text_to_bytes_chars_num_suffix num "P".data (1024 ^ 5) hnum hne (by decide)
            (by decide) (by decide) (by decide),
          text_to_bytes_chars_num_suffix num "PiB".data (1024 ^ 5) hnum hne (by decide)
            (by decide) (by decide) (by decide)]
      · rw [text_to_bytes_chars_num_suffix num "E".data (1024 ^ 6) hnum hne (by decide)
            (by decide) (by decide) (by decide),
          text_to_bytes_chars_num_suffix num "EiB".data (1024 ^ 6) hnum hne (by decide)
            (by decide) (by decide) (by decide)]

/-- Witness for C5: the clamp bound and the `K`/`KiB` synonymy at the
number `2`. -/
theorem text_to_bytes_suffix_synonyms_and_clamp_witness :
    (2048 : Nat) ≤ 2 ^ 64 - 1
    ∧ text_to_bytes_chars ("2".data ++ ' ' :: "K".data) =
        text_to_bytes_chars ("2".data ++ ' ' :: "KiB".data) :=
  ⟨text_to_bytes_suffix_synonyms_and_clamp.2.2.2.1 "2 K".data 2048 (by decide),
    (text_to_bytes_suffix_synonyms_and_clamp.2.2.2.2 "2".data (by decide)).1⟩

/-! ## C8: number grouping round-trip -/

theorem digitChar_isDigit : ∀ d, d < 10 → (Nat.digitChar d).isDigit = true := by decide

theorem digitVal_digitChar : ∀ d, d < 10 → digitVal (Nat.digitChar d) = d := by decide

theorem digitChar_not_space : ∀ d, d < 10 → pyIsSpace (Nat.digitChar d) = false := by decide

theorem digitChar_ne_comma : ∀ d, d < 10 → ((Nat.digitChar d == ',') = false) := by decide

theorem digitChar_ne_dot : ∀ d, d < 10 → Nat.digitChar d ≠ '.' := by decide

theorem natStrAux_mem : ∀ fuel n c, c ∈ natStrAux fuel n → ∃ d, d < 10 ∧ c = Nat.digitChar d := by
  intro fuel
  induction fuel with
  | zero => intro n c h; simp [natStrAux] at h
  | succ f ih =>
    intro n c h
    by_cases hn : n = 0
    · simp [natStrAux, hn] at h
    · rw [natStrAux, if_neg hn] at h
      rcases List.mem_cons.mp h with h | h
      · exact ⟨n % 10, Nat.mod_lt n (by norm_num), h⟩
      · exact ih (n / 10) c h

theorem natStr_mem (n : Nat) (c : Char) (h : c ∈ natStr n) :
    ∃ d, d < 10 ∧ c = Nat.digitChar d := by
  unfold natStr at h
  by_cases hn : n = 0
  · rw [if_pos hn] at h
    simp at h
    exact ⟨0, by norm_num, by rw [h]; rfl⟩
  · rw [if_neg hn, List.mem_reverse] at h
    exact natStrAux_mem (n + 1) n c h

theorem natStr_ne_nil (n : Nat) : natStr n ≠ [] := by
  unfold natStr
  by_cases hn : n = 0
  · simp [hn]
  · rw [if_neg hn, natStrAux, if_neg hn]
    simp

theorem valLE_natStrAux : ∀ fuel n, n ≤ fuel → valLE (natStrAux fuel n) = n := by
  intro fuel
  induction fuel with
  | zero => intro n h; interval_cases n; simp [natStrAux, valLE]
  | succ f ih =>
    intro n h
    by_cases hn : n = 0
    · simp [natStrAux, hn, valLE]
    · rw [natStrAux, if_neg hn]
      have hrec : n / 10 ≤ f := by
        have := Nat.div_lt_self (Nat.pos_of_ne_zero hn) (by norm_num : (1:Nat) < 10)
        omega
      rw [valLE, ih (n / 10) hrec, digitVal_digitChar (n % 10) (Nat.mod_lt n (by omega))]
      omega

theorem foldl_reverse_valLE : ∀ (l : List Char) (a : Nat),
    List.foldl (fun a c => a * 10 + digitVal c) a l.reverse =
      a * 10 ^ l.length + valLE l := by
  intro l
  induction l with
  | nil => intro a; simp [valLE]
  | cons c cs ih =>
    intro a
    rw [List.reverse_cons, List.foldl_append, ih a]
    simp only [List.foldl, valLE, List.length_cons, pow_succ]
    ring

theorem digitsVal_natStr (n : Nat) : digitsVal (natStr n) = n := by
  by_cases hn : n = 0
  · subst hn; decide
  · unfold natStr digitsVal
    rw [if_neg hn, foldl_reverse_valLE (natStrAux (n + 1) n) 0,
      valLE_natStrAux (n + 1) n (by omega)]
    simp

theorem dropWhile_eq_self_of {α : Type} (p : α → Bool) (l : List α)
    (h : ∀ c ∈ l, p c = false) : l.dropWhile p = l := by
  cases l with
  | nil => rfl
  | cons c cs => simp [List.dropWhile_cons, h c (List.mem_cons_self c cs)]

theorem pyStrip_eq_self (l : List Char) (h : ∀ c ∈ l, pyIsSpace c = false) :
    pyStrip l = l := by
  unfold pyStrip
  rw [dropWhile_eq_self_of pyIsSpace l h,
    dropWhile_eq_self_of pyIsSpace l.reverse (fun c hc => h c (List.mem_reverse.mp hc)),
    List.reverse_reverse]

theorem mem_groupLE : ∀ (l : List Char) (k : Nat) (c : Char),
    c ∈ groupLE l k → c ∈ l ∨ c = ',' := by
  intro l
  induction l with
  | nil => intro k c h; simp [groupLE] at h
  | cons a cs ih =>
    intro k c h
    match k, h with
    | 0, h =>
      rw [groupLE] at h
      rcases List.mem_cons.mp h with h | h
      · exact Or.inr h
      · rcases List.mem_cons.mp h with h | h
        · exact Or.inl (h ▸ List.mem_cons_self a cs)
        · rcases ih 2 c h with h | h
          · exact Or.inl (List.mem_cons_of_mem a h)
          · exact Or.inr h
    | k + 1, h =>
      rw [groupLE] at h
      rcases List.mem_cons.mp h with h | h
      · exact Or.inl (h ▸ List.mem_cons_self a cs)
      · rcases ih k c h with h | h
        · exact Or.inl (List.mem_cons_of_mem a h)
        · exact Or.inr h

theorem filter_groupLE : ∀ (l : List Char) (k : Nat),
    (∀ c ∈ l, (c == ',') = false) →
    (groupLE l k).filter (fun c => !(c == ',')) = l := by
  intro l
  induction l with
  | nil => intro k _; rfl
  | cons a cs ih =>
    intro k h
    have ha := h a (List.mem_cons_self a cs)
    have hcs := fun c hc => h c (List.mem_cons_of_mem a hc)
    match k with
    | 0 => simp [groupLE, List.filter_cons, ha, ih 2 hcs]
    | k + 1 => simp [groupLE, List.filter_cons, ha, ih k hcs]

theorem splitOnChar_eq_self (x : Char) (l : List Char) (h : x ∉ l) :
    splitOnChar x l = [l] := by
  induction l with
  | nil => rfl
  | cons c cs ih =>
    have hc : ¬(c = x) := fun he => h (he ▸ List.mem_cons_self c cs)
    rw [splitOnChar, if_neg hc, ih (fun hm => h (List.mem_cons_of_mem c hm))]

/-- C8: parsing the grouped rendering of any non-negative integer returns
the original value — `text_to_nr (format_nr n) = n` (as the exact integer
`PyNum` with zero scale). -/
theorem text_to_nr_format_nr_roundtrip (n : Nat) :
    text_to_nr (format_nr n false) = some ⟨n, 0⟩ := by
  have hmem : ∀ c ∈ (groupLE (natStr n).reverse 3).reverse, c ∈ natStr n ∨ c = ',' := by
    intro c hc
    rcases mem_groupLE (natStr n).reverse 3 c (List.mem_reverse.mp hc) with h | h
    · exact Or.inl (List.mem_reverse.mp h)
    · exact Or.inr h
  have hnospace : ∀ c ∈ (groupLE (natStr n).reverse 3).reverse, pyIsSpace c = false := by
    intro c hc
    rcases hmem c hc with h | h
    · obtain ⟨d, hd, rfl⟩ := natStr_mem n c h
      exact digitChar_not_space d hd
    · subst h; decide
  have hnocomma : ∀ c ∈ (natStr n).reverse, (c == ',') = false := by
    intro c hc
    obtain ⟨d, hd, rfl⟩ := natStr_mem n c (List.mem_reverse.mp hc)
    exact digitChar_ne_comma d hd
  have hnodot : '.' ∉ natStr n := by
    intro hm
    obtain ⟨d, hd, hc⟩ := natStr_mem n '.' hm
    exact digitChar_ne_dot d hd hc.symm
  have halldig : allDigits (natStr n) = true := by
    unfold allDigits
    rw [List.all_eq_true]
    intro c hc
    obtain ⟨d, hd, rfl⟩ := natStr_mem n c hc
    exact digitChar_isDigit d hd
  show text_to_nr_chars (format_nr n false).data = some ⟨n, 0⟩
  have hdata : (format_nr n false).data = (groupLE (natStr n).reverse 3).reverse := rfl
  rw [hdata]
  unfold text_to_nr_chars
  rw [pyStrip_eq_self _ hnospace, List.filter_reverse, filter_groupLE _ 3 hnocomma,
    List.reverse_reverse]
  simp only [splitOnChar_eq_self '.' (natStr n) hnodot]
  simp [natStr_ne_nil n, halldig, digitsVal_natStr]

/-! ## C9: no day unit in the approximate duration formatter -/

theorem d_ne_natString (k : Nat) : "d" ≠ natString k := by
  intro h
  have hdata : (natString k).data = ['d'] := by rw [← h]
  have hmem : 'd' ∈ natStr k := by
    have : (natString k).data = natStr k := rfl
    rw [this] at hdata
    rw [hdata]
    exact List.mem_cons_self 'd' []
  obtain ⟨d, hd, hc⟩ := natStr_mem k 'd' hmem
  revert hc
  revert hd
  revert d
  decide

theorem d_ne_fracTok (w rem th : Nat) : "d" ≠ String.mk (fracTok w rem th) := by
  intro h
  have hdata : fracTok w rem th = ['d'] := by
    have := congrArg String.data h
    simpa using this.symm
  by_cases hrem : rem = 0
  · rw [fracTok, if_pos hrem] at hdata
    have : 'd' ∈ natStr w := by rw [hdata]; exact List.mem_cons_self 'd' []
    obtain ⟨d, hd, hc⟩ := natStr_mem w 'd' this
    revert hc; revert hd; revert d; decide
  · rw [fracTok, if_neg hrem] at hdata
    have hlen := congrArg List.length hdata
    simp [pad3] at hlen

/-- C9: the approximate duration formatter never emits a `d` unit token,
for any nanosecond count — day-scale magnitudes fold into hours, so
3 days 2 hours renders as `74 h`. -/
theorem format_time_ns_no_day_unit :
    (∀ ns, "d" ∉ format_time_ns_tokens ns)
    ∧ format_time_ns (3 * day_ns + 2 * hour_ns) false = "74 h" := by
  refine ⟨fun ns => ?_, by decide⟩
  unfold format_time_ns_tokens
  split_ifs with h1 h2 h3 <;>
    simp [List.mem_append, List.mem_cons, d_ne_natString, d_ne_fracTok]
